import Mathlib

/-!
Verification of the chunk-dispatch-and-merge pipeline of `src/app.py`
(noctua-forest).

The development shallowly embeds the core of the repository:

* the chunk planner inside `get_rhyme_analysis_from_claude` (lines 408-423),
* the per-window response validation and merging (lines 455-526),
* the abort-on-API-error behaviour (lines 528-538),
* `MemoryEfficientCache` (lines 155-174),
* `generate_cache_key` and the `/api/analyze` route (lines 559-634),
* the JSON-locating step (lines 456-461), including the exact regular
  expression of the source, whose raw-string escaping is modelled verbatim.

Python `int` is modelled as `Int`; Python `str` mostly as `String`
(as `List Char` where character-level scanning is needed); JSON values as
the inductive `Json` below, with `json.loads` results of a window taken as
an `Option Json` input (`none` models "no JSON block located or
`json.JSONDecodeError`").  The external inference client is an external
collaborator: its per-window outcomes are a parameter (`ChunkOutcome`).
-/

namespace NoctuaForest

/-- JSON values as produced by `json.loads`: objects with string keys,
arrays, strings, integers (the validator only ever checks `isinstance int`),
booleans and null. -/
inductive Json where
  | null
  | bool (b : Bool)
  | num (n : Int)
  | str (s : String)
  | arr (elems : List Json)
  | obj (fields : List (String × Json))

mutual

/-- Structural equality of JSON values, modelling Python `==` on decoded
JSON.  (Python dict equality ignores key order; decoded objects have the
key order of the JSON text, and the claims only compare values decoded
from identical shapes, so order-sensitive equality is adequate here.) -/
def Json.beq : Json → Json → Bool
  | .null, .null => true
  | .bool a, .bool b => a == b
  | .num a, .num b => a == b
  | .str a, .str b => a == b
  | .arr a, .arr b => Json.beqList a b
  | .obj a, .obj b => Json.beqFields a b
  | _, _ => false

/-- Elementwise `Json.beq` on arrays. -/
def Json.beqList : List Json → List Json → Bool
  | [], [] => true
  | x :: xs, y :: ys => Json.beq x y && Json.beqList xs ys
  | _, _ => false

/-- Fieldwise `Json.beq` on objects. -/
def Json.beqFields : List (String × Json) → List (String × Json) → Bool
  | [], [] => true
  | (k1, v1) :: xs, (k2, v2) :: ys => k1 == k2 && Json.beq v1 v2 && Json.beqFields xs ys
  | _, _ => false

end

/-- Key lookup in a decoded JSON object (`claude_output_chunk['key']` after
an `'key' in claude_output_chunk` membership test); `none` when the value
is not an object or the key is absent. -/
def lookupField : List (String × Json) → String → Option Json
  | [], _ => none
  | (k1, v) :: rest, k => if k1 = k then some v else lookupField rest k

/-- `j.getKey? k` models `j[k]` guarded by `k in j` on a decoded value. -/
def Json.getKey? : Json → String → Option Json
  | .obj fields, k => lookupField fields k
  | _, _ => none

/-- Python truthiness of a decoded JSON value (`if claude_output_chunk:`,
app.py line 469): empty containers, empty strings, zero, `False` and
`None` are falsy. -/
def jsonTruthy : Json → Bool
  | .null => false
  | .bool b => b
  | .num n => !(n == 0)
  | .str s => !(s == "")
  | .arr l => !(l.isEmpty)
  | .obj l => !(l.isEmpty)

/-- A validated segment, i.e. the six required fields of a segment record
kept by the validator (app.py lines 478-493).  The source keeps the whole
dict and overwrites `globalStartIndex` / `globalEndIndex` with the clamped
values; the claims only concern these six fields. -/
structure Segment where
  text : String
  parent_word_text : String
  globalStartIndex : Int
  globalEndIndex : Int
  startIndexInParentWord : Int
  endIndexInParentWord : Int
deriving DecidableEq

/-- A merged pattern group (an element of `processed_segment_groups` for
the segment-style scheme).  The source never type-checks
`phonetic_link_id` and `pattern_description`, so they stay `Json`. -/
structure PatternGroup where
  phonetic_link_id : Json
  pattern_description : Json
  segments : List Segment

/-- An element of the `processed_segment_groups` list: a phonetic pattern
group, a word-list batch `{"type": ..., "data": ...}` (app.py line 526),
or the error entry `{"error_message": ...}` (lines 533 and 538). -/
inductive Entry where
  | phonGroup (g : PatternGroup)
  | wordBatch (ty : String) (data : Json)
  | errorMessage (msg : String)

/-- Validation and clamping of one segment record (app.py lines 479-493):
require the six fields with the four index fields integers and
`text` / `parent_word_text` strings; clamp `globalStartIndex` into
`[0, original_text_length - 1]` and `globalEndIndex` into
`[0, original_text_length]`; keep the segment only if
`0 <= gs_clamped < ge_clamped <= original_text_length`.
`L` is `original_text_length`, the length of the WHOLE text being
analyzed — the source uses no window-local length and adds no window
offset. -/
def validateSegment (L : Int) (j : Json) : Option Segment :=
  match j.getKey? "text", j.getKey? "parent_word_text",
        j.getKey? "globalStartIndex", j.getKey? "globalEndIndex",
        j.getKey? "startIndexInParentWord", j.getKey? "endIndexInParentWord" with
  | some (.str txt), some (.str pw), some (.num gs), some (.num ge),
      some (.num sip), some (.num eip) =>
    let gsClamped := max 0 (min gs (L - 1))
    let geClamped := max 0 (min ge L)
    if 0 ≤ gsClamped ∧ gsClamped < geClamped ∧ geClamped ≤ L then
      some ⟨txt, pw, gsClamped, geClamped, sip, eip⟩
    else none
  | _, _, _, _, _, _ => none

/-- Structural check of one group record (app.py lines 473-475): a dict
carrying `phonetic_link_id`, `pattern_description` and a non-empty list
`segments`. -/
def checkGroup (j : Json) : Option (Json × Json × List Json) :=
  match j with
  | .obj _ =>
    match j.getKey? "phonetic_link_id", j.getKey? "pattern_description",
          j.getKey? "segments" with
    | some gid, some desc, some (.arr segs) =>
      if segs.isEmpty then none else some (gid, desc, segs)
    | _, _, _ => none
  | _ => none

/-- Segment-duplicate test used by the merge (app.py lines 501-505):
equality of `(globalStartIndex, globalEndIndex, parent_word_text)`. -/
def sameSpan (a b : Segment) : Bool :=
  a.globalStartIndex == b.globalStartIndex &&
  a.globalEndIndex == b.globalEndIndex &&
  a.parent_word_text == b.parent_word_text

/-- Appending incoming segments to an existing group's segments, skipping
any incoming segment whose `(globalStartIndex, globalEndIndex,
parent_word_text)` already occurs in the (growing) list (app.py lines
499-508). -/
def dedupAppend (existing incoming : List Segment) : List Segment :=
  incoming.foldl (fun acc s => if acc.any (fun t => sameSpan t s) then acc else acc ++ [s])
    existing

/-- Merging one validated group into `processed_segment_groups` (app.py
lines 496-514): find the first group with `Json.beq`-equal
`phonetic_link_id`; if found, `dedupAppend` the incoming segments into it
(its description is untouched); otherwise append a new group with the
incoming description and segments.  Word-batch and error entries never
match (in the source they would not even be scanned, since the state is
homogeneous for a fixed scheme). -/
def mergeGroup : List Entry → Json → Json → List Segment → List Entry
  | [], gid, desc, segs => [.phonGroup ⟨gid, desc, segs⟩]
  | .phonGroup g :: rest, gid, desc, segs =>
    if Json.beq g.phonetic_link_id gid then
      .phonGroup ⟨g.phonetic_link_id, g.pattern_description, dedupAppend g.segments segs⟩ :: rest
    else .phonGroup g :: mergeGroup rest gid desc segs
  | e :: rest, gid, desc, segs => e :: mergeGroup rest gid desc segs

/-- Processing the `phonetic_segment_groups` array of one window (app.py
lines 472-516), returning the updated state and the number of warnings
printed: one warning per group record with invalid structure; a group
whose segments all fail validation is silently skipped. -/
def processGroups (L : Int) (st : List Entry) (groups : List Json) : List Entry × Nat :=
  groups.foldl
    (fun acc g =>
      match checkGroup g with
      | some (gid, desc, segsJson) =>
        let valid := segsJson.filterMap (validateSegment L)
        if valid.isEmpty then acc else (mergeGroup acc.1 gid desc valid, acc.2)
      | none => (acc.1, acc.2 + 1))
    (st, 0)

/-- Whole-batch match used by the word-list merge (app.py line 525):
`item.get("type") == rhyme_scheme_key and item.get("data") == rhyme_groups`.
On a phonetic group or error entry, `item.get("type")` is `None` and the
comparison is false. -/
def wordEntryMatches (scheme : String) (d : Json) : Entry → Bool
  | .wordBatch ty data => ty == scheme && Json.beq data d
  | _ => false

/-- The word-list merge step (app.py lines 525-526): append the whole
incoming batch as one `{"type", "data"}` entry unless an entry with the
same type and a `==`-equal data list is already present. -/
def wordStep (st : List Entry) (scheme : String) (d : Json) : List Entry :=
  if st.any (wordEntryMatches scheme d) then st else st ++ [.wordBatch scheme d]

/-- Processing one window's decoded response (app.py lines 463-526),
given the scheme and `original_text_length`.  `p = none` models a raw
response in which no JSON block was located or whose located block failed
`json.loads` — either way exactly one warning is printed and the window
contributes nothing.  A decoded but falsy value (for example `{}`) is
skipped with no warning (`if claude_output_chunk:`).  For the phonetic
scheme, a missing or non-list `phonetic_segment_groups` prints one
warning; for the word schemes a missing or non-list `rhyme_groups` is
skipped silently. -/
def processWindow (scheme : String) (L : Int) (st : List Entry) (p : Option Json) :
    List Entry × Nat :=
  match p with
  | none => (st, 1)
  | some j =>
    if jsonTruthy j then
      if scheme = "phonetic_architecture" then
        match j.getKey? "phonetic_segment_groups" with
        | some (.arr groups) => processGroups L st groups
        | _ => (st, 1)
      else
        match j.getKey? "rhyme_groups" with
        | some (.arr rgs) => (wordStep st scheme (.arr rgs), 0)
        | _ => (st, 0)
    else (st, 0)

/-- Failure kinds of one `client.messages.create` call (app.py lines
528-538): the `anthropic.APIError` subclasses distinguished by the code
plus the catch-all `except Exception`. -/
inductive ApiErrorKind where
  | rateLimited
  | authFailure
  | otherApi
  | unexpected

/-- The `error_message` text assembled for a failed window call (app.py
lines 530-538), with `d` standing for `str(e)`. -/
def apiErrorText : ApiErrorKind → String → String
  | .rateLimited, d =>
    "Wow, you\x27re analyzing so much! We\x27ve hit a temporary limit. Please try again in a moment. (Details: " ++ d ++ ")"
  | .authFailure, d =>
    "Authentication issue with our analysis engine. Please contact support. (Details: " ++ d ++ ")"
  | .otherApi, d =>
    "Our analysis engine seems to be quite busy or encountered a hiccup. (Details: " ++ d ++ ")"
  | .unexpected, d =>
    "An unexpected problem occurred while analyzing your text. (Details: " ++ d ++ ")"

/-- The outcome of dispatching one window to the external service: either
the call raised (an `APIError` subclass or an unexpected exception, with
`str(e)` carried as a string), or it returned and the response decoded to
`some` JSON value or to `none` (no block / decode error). -/
inductive ChunkOutcome where
  | apiFailure (kind : ApiErrorKind) (details : String)
  | response (parsed : Option Json)

/-- The per-window loop of `get_rhyme_analysis_from_claude` (app.py lines
422-538) over a given sequence of window outcomes: windows are processed
strictly in order; the first failed call makes the whole function return
`[{"error_message": ...}]` immediately, discarding the state accumulated
so far.  The second component counts warnings printed along the way. -/
def runChunks (scheme : String) (L : Int) : List ChunkOutcome → List Entry → List Entry × Nat
  | [], st => (st, 0)
  | .apiFailure k d :: _, _ => ([.errorMessage (apiErrorText k d)], 0)
  | .response p :: rest, st =>
    let pr := processWindow scheme L st p
    let r := runChunks scheme L rest pr.1
    (r.1, pr.2 + r.2)

/-- The value returned by `get_rhyme_analysis_from_claude` (app.py lines
400-557) for stripped text `t`, with the external calls' outcomes given
as a parameter: the empty text returns `[]` before any planning. -/
def getRhymeAnalysisValue (scheme : String) (t : String) (outcomes : List ChunkOutcome) :
    List Entry :=
  if t.length = 0 then [] else (runChunks scheme (t.length : Int) outcomes []).1

/-! ## The chunk planner (app.py lines 397-423) -/

/-- `MAX_CHARS_PER_CHUNK_RHYME` (app.py line 397). -/
def MAX_CHARS_PER_CHUNK_RHYME : Int := 3500

/-- `CHUNK_OVERLAP_CHARS_RHYME` (app.py line 398). -/
def CHUNK_OVERLAP_CHARS_RHYME : Int := 150

/-- One loop iteration's increment (app.py lines 412-414), including the
pathological fallback. -/
def chunkIncrement (maxW ov : Int) : Int :=
  let ni := maxW - ov
  if ni ≤ 0 then (if maxW > 0 then maxW / 2 else 1) else ni

/-- The `while current_pos < original_text_length` loop building
`chunk_starts` (app.py lines 409-419).  The Python loop has no bound; the
fuel argument only serves totality and is always given enough to exhaust
the loop for the configurations the claims are about (increment `3350 > 0`). -/
def chunkStartsLoop (maxW ov L : Int) : Nat → Int → List Int
  | 0, _ => []
  | fuel + 1, cur =>
    if cur < L then
      let inc := chunkIncrement maxW ov
      let cand := cur + inc
      let next := if cand ≤ cur ∧ L > maxW then cur + 1 else cand
      cur :: chunkStartsLoop maxW ov L fuel next
    else []

/-- `chunk_starts` (app.py lines 408-420), including the
`if not chunk_starts: chunk_starts.append(0)` fallback. -/
def chunkStarts (maxW ov L : Int) : List Int :=
  if (chunkStartsLoop maxW ov L (L.toNat + 1) 0).isEmpty then [0]
  else chunkStartsLoop maxW ov L (L.toNat + 1) 0

/-- The planned windows: each start is paired with
`min(start + maxW, L)` (app.py line 423). -/
def planWindows (maxW ov L : Int) : List (Int × Int) :=
  (chunkStarts maxW ov L).map (fun s => (s, min (s + maxW) L))

/-- The start offsets for the source's constants, written as a clean
recursion on which induction is convenient; `chunkStartsLoop` with enough
fuel computes exactly this (proved below). -/
def startsFrom (L cur : Int) : List Int :=
  if cur < L then cur :: startsFrom L (cur + 3350) else []
termination_by (L - cur).toNat
decreasing_by omega

/-! ## The result cache (app.py lines 155-177, 559-562) -/

/-- `MemoryEfficientCache` (app.py lines 155-174): a Python dict (modelled
as an association list in insertion order, keys unique) plus `max_size`
(default 1000). -/
structure MemoryEfficientCache (α : Type) where
  entries : List (String × α)
  max_size : Nat

/-- `get` (app.py lines 161-163): plain dict lookup; the access does not
reorder or otherwise mutate the cache. -/
def cacheGet {α : Type} (k : String) (c : MemoryEfficientCache α) : Option α :=
  (c.entries.find? (fun e => e.1 == k)).map (fun e => e.2)

/-- `set` (app.py lines 165-170): when `len(cache) >= max_size`, pop
`next(iter(cache))` — the earliest-inserted key (Python dicts iterate in
insertion order; re-assignment keeps a key's position) — then assign,
which updates an existing key in place or appends a new one at the end. -/
def cacheSet {α : Type} (k : String) (v : α) (c : MemoryEfficientCache α) :
    MemoryEfficientCache α :=
  let es := if c.max_size ≤ c.entries.length then c.entries.drop 1 else c.entries
  { c with
    entries :=
      if es.any (fun e => e.1 == k) then es.map (fun e => if e.1 == k then (k, v) else e)
      else es ++ [(k, v)] }

/-! ## The route (app.py lines 248-253, 559-634) -/

/-- Python `str.strip()` on the ends of the text (app.py line 253). -/
def pyStrip (s : String) : String :=
  String.mk (((s.data.dropWhile Char.isWhitespace).reverse.dropWhile Char.isWhitespace).reverse)

/-- `generate_cache_key` (app.py lines 559-562):
`f"{rhyme_scheme}_{sha256(text).hexdigest()}"`.  The SHA-256 hex digest is
an opaque deterministic function of the text; it is abstracted as the
parameter `digest`, and every cache-related theorem below holds for an
arbitrary `digest`. -/
def generate_cache_key (digest : String → String) (text scheme : String) : String :=
  scheme ++ "_" ++ digest text

/-- A stand-in digest used only to instantiate closed concrete examples;
the theorems quantify over the digest function. -/
def digestStub : String → String := fun t => t

/-- What the route hands back to the caller: either `jsonify(result)` of a
result list with a status, or an `{"error": ..., "message": ...}` envelope
with a status. -/
inductive RouteResponse where
  | json (body : List Entry) (status : Nat)
  | envelope (error : String) (message : String) (status : Nat)

/-- Whether a route response is an `{"error", "message"}` envelope. -/
def RouteResponse.isEnvelope : RouteResponse → Bool
  | .envelope _ _ _ => true
  | .json _ _ => false

/-- `/api/analyze` (app.py lines 568-634).  `body` is the parsed request:
`none` models a missing/absent `text` field; otherwise the `text` value and
the optional `rhyme_scheme`.  `outcomes` is the external collaborator's
behaviour for this request's window calls; `cache` is the shared
`memory_cache`.  Returns the response, the new cache state and whether the
external service was consulted.  The route's `except anthropic.APIError`
branch (line 612) is unreachable, because `get_rhyme_analysis_from_claude`
catches every `APIError` itself and converts it to a returned
`[{"error_message": ...}]` list; it is therefore absent from the model.
An empty cached list is falsy (`if cached_result:`) and is treated as a
miss. -/
def analyzeRoute (digest : String → String) (body : Option (String × Option String))
    (outcomes : List ChunkOutcome) (cache : MemoryEfficientCache (List Entry)) :
    RouteResponse × MemoryEfficientCache (List Entry) × Bool :=
  match body with
  | none =>
    (.envelope "Validation error" "Missing required field: text" 400, cache, false)
  | some (text, schemeOpt) =>
    if text = "" then
      (.envelope "Validation error" "Invalid input: text must be a non-empty string" 400,
        cache, false)
    else if 10000 < text.length then
      (.envelope "Validation error" "Text too long: maximum 10000 characters" 400,
        cache, false)
    else
      let t := pyStrip text
      let scheme := schemeOpt.getD "phonetic_architecture"
      let key := generate_cache_key digest t scheme
      let miss := fun (_ : Unit) =>
        let result := getRhymeAnalysisValue scheme t outcomes
        (RouteResponse.json result 200, cacheSet key result cache, true)
      match cacheGet key cache with
      | some v => if v.isEmpty then miss () else (.json v 200, cache, false)
      | none => miss ()

/-! ## Locating the JSON block in a raw response (app.py lines 456-461)

The source first accepts the stripped response verbatim when it starts
with a brace and ends with a brace; otherwise it runs

  `re.search(r"` ``` `json\\s*([\\s\\S]*?)\\s*` ``` `|({[\\s\\S]*})", raw)`.

Because the pattern is a RAW string, `\\s` is the regex "escaped
backslash, then letter s", not whitespace, and `[\\s\\S]` is the character
class containing exactly backslash, `s` and `S`.  The matcher below
implements precisely that pattern with Python's leftmost search,
first-alternative preference, greedy `s*` and lazy `[\\s\\S]*?`. -/

/-- The backtick character (written via its code point, ASCII 96). -/
def backtickChar : Char := Char.ofNat 96

/-- The opening-brace character (ASCII 123). -/
def openBraceChar : Char := Char.ofNat 123

/-- The closing-brace character (ASCII 125). -/
def closeBraceChar : Char := Char.ofNat 125

/-- The backslash character. -/
def backslashChar : Char := '\\'

/-- Membership in the class `[\\s\\S]` of the source's raw-string pattern:
exactly backslash, `s`, `S`. -/
def jsonClassChar (c : Char) : Bool :=
  c == backslashChar || c == 's' || c == 'S'

/-- Length of the maximal run of `s` characters at the head. -/
def sCount (l : List Char) : Nat := (l.takeWhile (fun c => c == 's')).length

/-- Length of the maximal run of class characters at the head. -/
def classCount (l : List Char) : Nat := (l.takeWhile jsonClassChar).length

/-- Whether the list starts with three backticks. -/
def isTripleTick (l : List Char) : Bool :=
  l.take 3 == [backtickChar, backtickChar, backtickChar]

/-- First `some` in a list of attempts (backtracking order). -/
def firstSome {α : Type} : List (Option α) → Option α
  | [] => none
  | some a :: _ => some a
  | none :: rest => firstSome rest

/-- The tail `\\s*` ``` ` ``` of the first alternative after the lazy
group: a literal backslash, then a greedy run of `s`, then three
backticks (with backtracking over the run length). -/
def matchATail (l : List Char) : Bool :=
  match l with
  | c :: rest =>
    if c == backslashChar then
      (List.range (sCount rest + 1)).any (fun k => isTripleTick (rest.drop k))
    else false
  | [] => false

/-- The literal prefix of the first alternative: three backticks, `json`,
then the literal backslash demanded by the raw-string `\\`. -/
def fencedOpen : List Char :=
  [backtickChar, backtickChar, backtickChar, 'j', 's', 'o', 'n', backslashChar]

/-- The first alternative of the source's pattern, anchored at the head of
`l`; on success returns the lazy capture group.  Greedy `s*` tries the
longest run first; the lazy group tries the shortest expansion first. -/
def matchA (l : List Char) : Option (List Char) :=
  if l.take 8 = fencedOpen then
    let rest := l.drop 8
    firstSome (((List.range (sCount rest + 1)).reverse).map (fun k =>
      let r1 := rest.drop k
      firstSome ((List.range (classCount r1 + 1)).map (fun m =>
        if matchATail (r1.drop m) then some (r1.take m) else none))))
  else none

/-- The second alternative `({[\\s\\S]*})`, anchored at the head of `l`:
an opening brace, a greedy run of class characters, then a closing brace.
Since the closing brace is not a class character, backtracking succeeds
exactly when the character right after the maximal class run is a closing
brace. -/
def matchB (l : List Char) : Option (List Char) :=
  match l with
  | c :: rest =>
    if c == openBraceChar then
      let run := rest.takeWhile jsonClassChar
      match rest.drop run.length with
      | d :: _ => if d == closeBraceChar then some (c :: (run ++ [d])) else none
      | [] => none
    else none
  | [] => none

/-- `re.search`: scan positions left to right, trying the first
alternative before the second at each position; return the capture groups
`(group(1), group(2))` of the first match. -/
def regexSearch1 : List Char → Option (Option (List Char) × Option (List Char))
  | [] => none
  | c :: rest =>
    match matchA (c :: rest) with
    | some g1 => some (some g1, none)
    | none =>
      match matchB (c :: rest) with
      | some m => some (none, some m)
      | none => regexSearch1 rest

/-- Python `str.strip()` at character-list level. -/
def trimChars (l : List Char) : List Char :=
  ((l.dropWhile Char.isWhitespace).reverse.dropWhile Char.isWhitespace).reverse

/-- The JSON-locating step (app.py lines 456-467) producing the string
handed to `json.loads`, or `none` when the source would print the
"No JSON block" warning: the stripped response taken verbatim when it
starts and ends with braces, otherwise the regex search, with Python's
`json_match.group(1) or json_match.group(2)` falsy-chaining and the final
`if json_str:` truthiness test. -/
def locateJson (raw : String) : Option String :=
  let t := trimChars raw.data
  let verbatim :=
    match t with
    | c :: _ =>
      c == openBraceChar &&
        (match t.getLast? with
         | some d => d == closeBraceChar
         | none => false)
    | [] => false
  if verbatim then some (String.mk t)
  else
    match regexSearch1 raw.data with
    | none => none
    | some (g1, g2) =>
      let js :=
        match g1 with
        | some c => if c.isEmpty then g2 else some c
        | none => g2
      match js with
      | some c => if c.isEmpty then none else some (String.mk c)
      | none => none

/-- A typical raw response carrying a well-formed fenced JSON block —
the shape the source's regex visibly intends to extract. -/
def fencedResponse : String :=
  "Here is the JSON:\n```json\n\x7b\"phonetic_segment_groups\": []\x7d\n```"

/-! ## Definitions modelled from the spec, for refinement comparisons -/

/-- Modelled from the spec: the clamping-and-translation step the spec
describes for the validator — missing from the source, which clamps
against the whole text length and never translates (see `validateSegment`).
Clamp `globalStart` into `[0, windowLen - 1]` and `globalEnd` into
`[0, windowLen]`, drop the segment if `start >= end` after clamping, then
add the window's start offset to both surviving indices. -/
def specClampTranslate (windowLen offset gs ge : Int) : Option (Int × Int) :=
  let gsClamped := max 0 (min gs (windowLen - 1))
  let geClamped := max 0 (min ge windowLen)
  if gsClamped < geClamped then some (gsClamped + offset, geClamped + offset) else none

/-- Modelled from the spec: the word-list aggregation the spec describes —
a flat list of records, an incoming record appended only when no existing
record is fully equal to it.  The source instead deduplicates whole
`{"type", "data"}` batches (see `wordStep`). -/
def specWordRecordMerge (existing incoming : List Json) : List Json :=
  incoming.foldl (fun acc r => if acc.any (fun t => Json.beq t r) then acc else acc ++ [r])
    existing

/-- The individual records contained in the word-batch entries of a state,
in order (the concatenation of the `data` lists). -/
def wordRecords : List Entry → List Json
  | [] => []
  | .wordBatch _ (.arr rs) :: rest => rs ++ wordRecords rest
  | _ :: rest => wordRecords rest

/-- Example segments used to instantiate witnesses. -/
def segEx1 : Segment := ⟨"lo", "hello", 3, 5, 1, 3⟩

/-- A second example segment with a distinct span. -/
def segEx2 : Segment := ⟨"orld", "world", 7, 11, 1, 5⟩

/-- An example word-list record (a decoded `rhyme_groups` element). -/
def wordRec1 : Json :=
  Json.obj [("words", .arr [.str "day", .str "play"]), ("pattern_description", .str "AA")]

/-- A second, distinct word-list record. -/
def wordRec2 : Json :=
  Json.obj [("words", .arr [.str "night", .str "light"]), ("pattern_description", .str "AA")]

/-- A segment record object with the six required fields, as decoded from
a response. -/
def segJson (txt pw : String) (gs ge sip eip : Int) : Json :=
  Json.obj [("text", .str txt), ("parent_word_text", .str pw),
    ("globalStartIndex", .num gs), ("globalEndIndex", .num ge),
    ("startIndexInParentWord", .num sip), ("endIndexInParentWord", .num eip)]

/-- A decoded window payload that is valid JSON but lacks the expected
top-level key for any scheme. -/
def badWordJson : Json := Json.obj [("unexpected", Json.num 1)]

/-- A well-formed word-scheme window payload carrying one record. -/
def goodBatch1 : Json := Json.obj [("rhyme_groups", Json.arr [wordRec1])]

/-- A second well-formed word-scheme window payload. -/
def goodBatch2 : Json := Json.obj [("rhyme_groups", Json.arr [wordRec2])]

/-! # Theorems -/

mutual

theorem Json.beq_refl : ∀ j : Json, Json.beq j j = true
  | .null => rfl
  | .bool a => by simp [Json.beq]
  | .num a => by simp [Json.beq]
  | .str a => by simp [Json.beq]
  | .arr a => by rw [Json.beq]; exact Json.beqList_refl a
  | .obj a => by rw [Json.beq]; exact Json.beqFields_refl a

theorem Json.beqList_refl : ∀ l : List Json, Json.beqList l l = true
  | [] => rfl
  | x :: xs => by rw [Json.beqList, Json.beq_refl x, Json.beqList_refl xs]; rfl

theorem Json.beqFields_refl : ∀ l : List (String × Json), Json.beqFields l l = true
  | [] => rfl
  | (k, v) :: xs => by
    rw [Json.beqFields, Json.beq_refl v, Json.beqFields_refl xs]
    simp

end

theorem sameSpan_refl (s : Segment) : sameSpan s s = true := by
  simp [sameSpan]

theorem dedupAppend_nil (acc : List Segment) : dedupAppend acc [] = acc := rfl

theorem dedupAppend_cons (acc : List Segment) (s : Segment) (ls : List Segment) :
    dedupAppend acc (s :: ls)
      = dedupAppend (if acc.any (fun t => sameSpan t s) then acc else acc ++ [s]) ls := rfl

theorem dedupAppend_mem_left :
    ∀ (l acc : List Segment), ∀ x ∈ acc, x ∈ dedupAppend acc l := by
  intro l
  induction l with
  | nil => intro acc x hx; rw [dedupAppend_nil]; exact hx
  | cons s ls ih =>
    intro acc x hx
    rw [dedupAppend_cons]
    apply ih
    by_cases h : acc.any (fun t => sameSpan t s)
    · rw [if_pos h]; exact hx
    · rw [if_neg h]; exact List.mem_append_left _ hx

theorem dedupAppend_subset :
    ∀ (l acc : List Segment), ∀ x ∈ dedupAppend acc l, x ∈ acc ∨ x ∈ l := by
  intro l
  induction l with
  | nil => intro acc x hx; rw [dedupAppend_nil] at hx; exact Or.inl hx
  | cons s ls ih =>
    intro acc x hx
    rw [dedupAppend_cons] at hx
    by_cases h : acc.any (fun t => sameSpan t s)
    · rw [if_pos h] at hx
      rcases ih acc x hx with h1 | h1
      · exact Or.inl h1
      · exact Or.inr (List.mem_cons_of_mem s h1)
    · rw [if_neg h] at hx
      rcases ih (acc ++ [s]) x hx with h1 | h1
      · rcases List.mem_append.mp h1 with h2 | h2
        · exact Or.inl h2
        · exact Or.inr (List.mem_cons.mpr (Or.inl (List.mem_singleton.mp h2)))
      · exact Or.inr (List.mem_cons_of_mem s h1)

theorem dedupAppend_represented :
    ∀ (l acc : List Segment), ∀ t ∈ l, ∃ u ∈ dedupAppend acc l, sameSpan u t = true := by
  intro l
  induction l with
  | nil => intro acc t ht; exact absurd ht (List.not_mem_nil t)
  | cons s ls ih =>
    intro acc t ht
    rw [dedupAppend_cons]
    rcases List.mem_cons.mp ht with rfl | ht
    · by_cases h : acc.any (fun u => sameSpan u t)
      · rw [if_pos h]
        obtain ⟨u, hu, hspan⟩ := List.any_eq_true.mp h
        exact ⟨u, dedupAppend_mem_left ls acc u hu, hspan⟩
      · rw [if_neg h]
        exact ⟨t, dedupAppend_mem_left ls (acc ++ [t]) t
          (List.mem_append_right acc (List.mem_singleton.mpr rfl)), sameSpan_refl t⟩
    · exact ih _ t ht

theorem mergeGroup_nil (gid d : Json) (segs : List Segment) :
    mergeGroup [] gid d segs = [.phonGroup ⟨gid, d, segs⟩] := rfl

theorem mergeGroup_same (gid d1 d2 : Json) (s1 s2 : List Segment) :
    mergeGroup [.phonGroup ⟨gid, d1, s1⟩] gid d2 s2
      = [.phonGroup ⟨gid, d1, dedupAppend s1 s2⟩] := by
  simp [mergeGroup, Json.beq_refl]

/-- Claim C3: merging two validated batches that carry the same group
identifier yields exactly one `PatternGroup` for that identifier; its
description is the first batch's description (the second never overwrites
it); its segments contain all of the first batch's segments, contain only
segments of the two batches, and represent every second-batch segment up
to `(globalStart, globalEnd, parentWord)` equality — a segment of the
second batch is dropped exactly when a span-equal segment is already
present. -/
theorem C3_merge_same_identifier (gid d1 d2 : Json) (s1 s2 : List Segment) :
    ∃ segs : List Segment,
      mergeGroup (mergeGroup [] gid d1 s1) gid d2 s2 = [.phonGroup ⟨gid, d1, segs⟩] ∧
      (∀ t ∈ s1, t ∈ segs) ∧
      (∀ t ∈ segs, t ∈ s1 ∨ t ∈ s2) ∧
      (∀ t ∈ s2, ∃ u ∈ segs, sameSpan u t = true) := by
  refine ⟨dedupAppend s1 s2, ?_, ?_, ?_, ?_⟩
  · rw [mergeGroup_nil]; exact mergeGroup_same gid d1 d2 s1 s2
  · exact fun t ht => dedupAppend_mem_left s2 s1 t ht
  · exact fun t ht => dedupAppend_subset s2 s1 t ht
  · exact fun t ht => dedupAppend_represented s2 s1 t ht

/-- Witness for C3 at a concrete pair of batches sharing identifier `g1`. -/
theorem C3_merge_same_identifier_witness :
    ∃ segs : List Segment,
      mergeGroup (mergeGroup [] (.str "g1") (.str "desc one") [segEx1])
          (.str "g1") (.str "desc two") [segEx1, segEx2]
        = [.phonGroup ⟨.str "g1", .str "desc one", segs⟩] ∧
      (∀ t ∈ [segEx1], t ∈ segs) ∧
      (∀ t ∈ segs, t ∈ [segEx1] ∨ t ∈ [segEx1, segEx2]) ∧
      (∀ t ∈ [segEx1, segEx2], ∃ u ∈ segs, sameSpan u t = true) :=
  C3_merge_same_identifier (.str "g1") (.str "desc one") (.str "desc two")
    [segEx1] [segEx1, segEx2]

/-- Claim C8: inserting when the cache holds `max_size` entries evicts the
earliest-inserted entry (the head of the insertion-ordered list),
regardless of reads — `cacheGet` never mutates the cache, so recency of
reads cannot influence eviction. -/
theorem C8_insertion_order_eviction {α : Type} (c : MemoryEfficientCache α)
    (k : String) (v : α)
    (hfull : c.entries.length = c.max_size)
    (hfresh : ∀ e ∈ c.entries, e.1 ≠ k) :
    (cacheSet k v c).entries = c.entries.drop 1 ++ [(k, v)] := by
  unfold cacheSet
  rw [if_pos (le_of_eq hfull.symm)]
  have h2 : (c.entries.drop 1).any (fun e => e.1 == k) = false := by
    rw [List.any_eq_false]
    intro e he
    have hmem : e ∈ c.entries := List.mem_of_mem_drop he
    simpa using hfresh e hmem
  simp only [h2]
  rfl

/-- Witness for C8: the spec's capacity-2 scenario.  Keys `A`, `B`, `C`
are inserted in order, `A` is read (most recently) just before `C` is
inserted, and `A` is still the entry evicted. -/
theorem C8_insertion_order_eviction_witness :
    cacheGet "A" (cacheSet "B" 2 (cacheSet "A" 1 (⟨[], 2⟩ : MemoryEfficientCache Nat)))
        = some 1 ∧
    (cacheSet "C" 3 (cacheSet "B" 2 (cacheSet "A" 1
        (⟨[], 2⟩ : MemoryEfficientCache Nat)))).entries
      = [("B", 2), ("C", 3)] := by
  constructor
  · rfl
  · exact (C8_insertion_order_eviction (⟨[("A", 1), ("B", 2)], 2⟩ : MemoryEfficientCache Nat)
      "C" 3 rfl (by decide)).trans rfl

/-- Counterexample to claim C9 as stated: the aggregator does not keep a
flat record list with per-record deduplication.  Merging the batch
`[r1]` and then the batch `[r1, r2]` under the same scheme stores two
whole-batch entries whose concatenated records list `r1` twice, while the
spec's described per-record merge yields `[r1, r2]`. -/
theorem C9_counterexample :
    wordRecords (wordStep (wordStep [] "couplets_aa_bb" (.arr [wordRec1]))
        "couplets_aa_bb" (.arr [wordRec1, wordRec2]))
      = [wordRec1, wordRec1, wordRec2] ∧
    specWordRecordMerge (specWordRecordMerge [] [wordRec1]) [wordRec1, wordRec2]
      = [wordRec1, wordRec2] ∧
    ([wordRec1, wordRec1, wordRec2] : List Json) ≠ [wordRec1, wordRec2] := by
  refine ⟨rfl, rfl, fun h => absurd (congrArg List.length h) (by decide)⟩

/-- Claim C9 (amended): the aggregator maintains a list of tagged
`{"type", "data"}` batch entries and appends the incoming whole batch
exactly when no existing entry has the same scheme tag and a fully equal
data list; merging the same batch twice is the same as merging it once. -/
theorem C9_batch_dedup (st : List Entry) (k : String) (d : Json) :
    (st.any (wordEntryMatches k d) = false → wordStep st k d = st ++ [.wordBatch k d]) ∧
    (st.any (wordEntryMatches k d) = true → wordStep st k d = st) ∧
    (wordStep st k d).any (wordEntryMatches k d) = true ∧
    wordStep (wordStep st k d) k d = wordStep st k d := by
  have hmatch : wordEntryMatches k d (.wordBatch k d) = true := by
    simp [wordEntryMatches, Json.beq_refl]
  by_cases h : st.any (wordEntryMatches k d)
  · have hstep : wordStep st k d = st := by rw [wordStep, if_pos h]
    refine ⟨fun hf => absurd h (by rw [hf]; exact Bool.false_ne_true), ?_, ?_, ?_⟩
    · intro _; exact hstep
    · rw [hstep]; exact h
    · rw [wordStep, hstep, if_pos h]
  · have hne : st.any (wordEntryMatches k d) = false := Bool.eq_false_iff.mpr h
    have happ : (st ++ [Entry.wordBatch k d]).any (wordEntryMatches k d) = true := by
      rw [List.any_append]
      simp [hmatch]
    have hstep : wordStep st k d = st ++ [Entry.wordBatch k d] := by rw [wordStep, if_neg h]
    refine ⟨fun _ => hstep, ?_, ?_, ?_⟩
    · intro ht; rw [hne] at ht; exact absurd ht Bool.false_ne_true
    · rw [hstep]; exact happ
    · rw [wordStep, hstep, if_pos happ]

/-- Witness for C9 (amended) at a concrete state and batch. -/
theorem C9_batch_dedup_witness :
    wordStep [] "couplets_aa_bb" (.arr [wordRec1])
      = [] ++ [.wordBatch "couplets_aa_bb" (.arr [wordRec1])] :=
  (C9_batch_dedup [] "couplets_aa_bb" (.arr [wordRec1])).1 rfl

/-! ## Planner lemmas (C4, C5) -/

theorem chunkIncrement_const : chunkIncrement 3500 150 = 3350 := rfl

theorem chunkStartsLoop_eq_startsFrom (L : Int) :
    ∀ (fuel : Nat) (cur : Int), L ≤ cur + fuel →
      chunkStartsLoop 3500 150 L fuel cur = startsFrom L cur := by
  intro fuel
  induction fuel with
  | zero =>
    intro cur h
    rw [startsFrom, if_neg (by push_cast at h; omega)]
    rfl
  | succ f ih =>
    intro cur h
    rw [startsFrom]
    by_cases hc : cur < L
    · rw [if_pos hc]
      show (if cur < L then
              let inc := chunkIncrement 3500 150
              let cand := cur + inc
              let next := if cand ≤ cur ∧ L > 3500 then cur + 1 else cand
              cur :: chunkStartsLoop 3500 150 L f next
            else []) = cur :: startsFrom L (cur + 3350)
      rw [if_pos hc]
      simp only [chunkIncrement_const]
      rw [if_neg (by omega)]
      exact congrArg (List.cons cur) (ih (cur + 3350) (by push_cast at h ⊢; omega))
    · rw [if_neg hc]
      show (if cur < L then
              let inc := chunkIncrement 3500 150
              let cand := cur + inc
              let next := if cand ≤ cur ∧ L > 3500 then cur + 1 else cand
              cur :: chunkStartsLoop 3500 150 L f next
            else []) = []
      rw [if_neg hc]

theorem chunkStarts_eq_startsFrom (L : Int) (hL : 0 < L) :
    chunkStarts 3500 150 L = startsFrom L 0 := by
  have he : chunkStartsLoop 3500 150 L (L.toNat + 1) 0 = startsFrom L 0 :=
    chunkStartsLoop_eq_startsFrom L (L.toNat + 1) 0 (by push_cast; omega)
  have hne : (startsFrom L 0).isEmpty = false := by
    rw [startsFrom, if_pos hL]; rfl
  rw [chunkStarts, he, hne]
  simp

theorem startsFrom_mem_lt (L : Int) : ∀ cur, ∀ s ∈ startsFrom L cur, s < L := by
  intro cur
  induction cur using startsFrom.induct L with
  | case1 cur hc ih =>
    rw [startsFrom, if_pos hc]
    intro s hs
    rcases List.mem_cons.mp hs with rfl | hs
    · exact hc
    · exact ih s hs
  | case2 cur hc =>
    rw [startsFrom, if_neg hc]
    intro s hs
    exact absurd hs (List.not_mem_nil s)

theorem startsFrom_mem_ge (L : Int) : ∀ cur, ∀ s ∈ startsFrom L cur, cur ≤ s := by
  intro cur
  induction cur using startsFrom.induct L with
  | case1 cur hc ih =>
    rw [startsFrom, if_pos hc]
    intro s hs
    rcases List.mem_cons.mp hs with rfl | hs
    · exact le_refl s
    · exact le_trans (by omega) (ih s hs)
  | case2 cur hc =>
    rw [startsFrom, if_neg hc]
    intro s hs
    exact absurd hs (List.not_mem_nil s)

theorem startsFrom_cover (L : Int) : ∀ cur, ∀ p : Int, cur ≤ p → p < L →
    ∃ s ∈ startsFrom L cur, s ≤ p ∧ p < s + 3350 := by
  intro cur
  induction cur using startsFrom.induct L with
  | case1 cur hc ih =>
    intro p hcp hpL
    rw [startsFrom, if_pos hc]
    by_cases hp : p < cur + 3350
    · exact ⟨cur, List.mem_cons_self cur _, hcp, hp⟩
    · obtain ⟨s, hs, h1, h2⟩ := ih p (by omega) hpL
      exact ⟨s, List.mem_cons_of_mem cur hs, h1, h2⟩
  | case2 cur hc =>
    intro p hcp hpL
    exact absurd hpL (by omega)

theorem startsFrom_consecutive (L : Int) : ∀ cur (pre : List Int) (a b : Int)
    (rest : List Int), startsFrom L cur = pre ++ a :: b :: rest → b = a + 3350 := by
  intro cur
  induction cur using startsFrom.induct L with
  | case1 cur hc ih =>
    intro pre a b rest heq
    rw [startsFrom, if_pos hc] at heq
    cases pre with
    | nil =>
      injection heq with h1 h2
      rw [startsFrom] at h2
      by_cases h3 : cur + 3350 < L
      · rw [if_pos h3] at h2
        injection h2 with h4 _
        omega
      · rw [if_neg h3] at h2
        exact absurd h2 (by simp)
    | cons x pre2 =>
      rw [List.cons_append] at heq
      injection heq with _ h2
      exact ih pre2 a b rest h2
  | case2 cur hc =>
    intro pre a b rest heq
    rw [startsFrom, if_neg hc] at heq
    exact absurd heq.symm (List.append_ne_nil_of_right_ne_nil pre (by simp))

/-- Counterexample to claim C4 as stated: the text length `3400` satisfies
`0 < 3400 ≤ maxWindow = 3500`, yet the planner emits a second window
`[3350, 3400)` — exactly one window is only guaranteed up to the advance
step `maxWindow - overlap = 3350`. -/
theorem C4_counterexample :
    (0 : Int) < 3400 ∧ (3400 : Int) ≤ 3500 ∧
    planWindows 3500 150 3400 = [(0, 3400), (3350, 3400)] ∧
    planWindows 3500 150 3400 ≠ [(0, 3400)] := by
  have hs : startsFrom 3400 0 = [0, 3350] := by
    rw [startsFrom, if_pos (by norm_num), startsFrom, if_pos (by norm_num),
      startsFrom, if_neg (by norm_num)]
    norm_num
  have hw : planWindows 3500 150 3400 = [(0, 3400), (3350, 3400)] := by
    rw [planWindows, chunkStarts_eq_startsFrom 3400 (by norm_num), hs]
    simp only [List.map_cons, List.map_nil]
    norm_num
  refine ⟨by norm_num, by norm_num, hw, ?_⟩
  rw [hw]
  intro h
  exact absurd (congrArg List.length h) (by decide)

/-- Claim C4 (amended): for every text length with
`0 < length ≤ maxWindow - overlap` (that is, up to the planner's advance
step `3350`), `plan` returns exactly one window equal to `[0, length)`.
For `maxWindow - overlap < length ≤ maxWindow` the planner emits a second
window (see the counterexample). -/
theorem C4_single_window (L : Int) (h0 : 0 < L) (h1 : L ≤ 3350) :
    planWindows 3500 150 L = [(0, L)] := by
  have hs : startsFrom L 0 = [0] := by
    rw [startsFrom, if_pos h0, startsFrom, if_neg (by omega)]
  rw [planWindows, chunkStarts_eq_startsFrom L h0, hs]
  have hmin : min ((0 : Int) + 3500) L = L := min_eq_right (by omega)
  simp only [List.map_cons, List.map_nil, hmin]

/-- Witness for C4 (amended) at length `100`. -/
theorem C4_single_window_witness :
    planWindows 3500 150 100 = [(0, 100)] :=
  C4_single_window 100 (by norm_num) (by norm_num)

/-- Claim C5: for every text length greater than `maxWindow = 3500`, the
planned windows cover `[0, L)` with no gaps (every position lies in some
window, and every window lies inside `[0, L]` with positive width), and
every pair of consecutive windows that are both non-final (a third window
follows them) overlaps by exactly `overlap = 150` characters. -/
theorem C5_cover_and_overlap (L : Int) (hL : 3500 < L) :
    (∀ p : Int, 0 ≤ p → p < L →
        ∃ w ∈ planWindows 3500 150 L, w.1 ≤ p ∧ p < w.2) ∧
    (∀ w ∈ planWindows 3500 150 L, 0 ≤ w.1 ∧ w.1 < w.2 ∧ w.2 ≤ L) ∧
    (∀ (pre : List (Int × Int)) (a b c : Int × Int) (rest : List (Int × Int)),
        planWindows 3500 150 L = pre ++ a :: b :: c :: rest → a.2 - b.1 = 150) := by
  have hplan : planWindows 3500 150 L
      = (startsFrom L 0).map (fun s => (s, min (s + 3500) L)) := by
    rw [planWindows, chunkStarts_eq_startsFrom L (by omega)]
  refine ⟨?_, ?_, ?_⟩
  · intro p hp0 hpL
    obtain ⟨s, hs, h1, h2⟩ := startsFrom_cover L 0 p hp0 hpL
    refine ⟨(s, min (s + 3500) L), ?_, h1, ?_⟩
    · rw [hplan]; exact List.mem_map_of_mem _ hs
    · exact lt_min (by omega) hpL
  · intro w hw
    rw [hplan] at hw
    obtain ⟨s, hs, rfl⟩ := List.mem_map.mp hw
    have hlt := startsFrom_mem_lt L 0 s hs
    have hge := startsFrom_mem_ge L 0 s hs
    exact ⟨hge, lt_min (by omega) hlt, min_le_right _ _⟩
  · intro pre a b c rest heq
    rw [hplan] at heq
    obtain ⟨l1, l2, hsplit, hm1, hm2⟩ := List.map_eq_append_iff.mp heq
    obtain ⟨a0, ta, hta, ha0, hma⟩ := List.map_eq_cons_iff.mp hm2
    obtain ⟨b0, tb, htb, hb0, hmb⟩ := List.map_eq_cons_iff.mp hma
    obtain ⟨c0, tc, htc, hc0, _⟩ := List.map_eq_cons_iff.mp hmb
    have hdecomp : startsFrom L 0 = l1 ++ a0 :: b0 :: c0 :: tc := by
      rw [hsplit, hta, htb, htc]
    have hab : b0 = a0 + 3350 := startsFrom_consecutive L 0 l1 a0 b0 (c0 :: tc) hdecomp
    have hbc : c0 = b0 + 3350 := by
      have hdecomp2 : startsFrom L 0 = (l1 ++ [a0]) ++ b0 :: c0 :: tc := by
        rw [hdecomp]; simp
      exact startsFrom_consecutive L 0 (l1 ++ [a0]) b0 c0 tc hdecomp2
    have hcmem : c0 ∈ startsFrom L 0 := by
      rw [hdecomp]
      exact List.mem_append_right l1 (by simp)
    have hclt := startsFrom_mem_lt L 0 c0 hcmem
    have hend : min (a0 + 3500) L = a0 + 3500 := min_eq_left (by omega)
    rw [← ha0, ← hb0]
    simp only [hend]
    omega

/-- Witness for C5 at length `7000`: position `4000` is covered, the
first window is well-formed, and the first two of the three windows
`[0,3500), [3350,6850), [6700,7000)` overlap by exactly `150`. -/
theorem C5_cover_and_overlap_witness :
    (∃ w ∈ planWindows 3500 150 7000, w.1 ≤ 4000 ∧ (4000 : Int) < w.2) ∧
    (∀ (pre : List (Int × Int)) (a b c : Int × Int) (rest : List (Int × Int)),
        planWindows 3500 150 7000 = pre ++ a :: b :: c :: rest → a.2 - b.1 = 150) :=
  ⟨(C5_cover_and_overlap 7000 (by norm_num)).1 4000 (by norm_num) (by norm_num),
   (C5_cover_and_overlap 7000 (by norm_num)).2.2⟩

/-! ## Pipeline lemmas (C1, C2, C10) -/

theorem runChunks_nil (scheme : String) (L : Int) (st : List Entry) :
    runChunks scheme L [] st = (st, 0) := rfl

theorem runChunks_cons_response (scheme : String) (L : Int) (p : Option Json)
    (rest : List ChunkOutcome) (st : List Entry) :
    runChunks scheme L (.response p :: rest) st
      = ((runChunks scheme L rest (processWindow scheme L st p).1).1,
         (processWindow scheme L st p).2
           + (runChunks scheme L rest (processWindow scheme L st p).1).2) := rfl

theorem runChunks_cons_failure (scheme : String) (L : Int) (k : ApiErrorKind) (d : String)
    (rest : List ChunkOutcome) (st : List Entry) :
    runChunks scheme L (.apiFailure k d :: rest) st
      = ([.errorMessage (apiErrorText k d)], 0) := rfl

theorem processWindow_none (scheme : String) (L : Int) (st : List Entry) :
    processWindow scheme L st none = (st, 1) := rfl

theorem runChunks_insert_none (scheme : String) (L : Int) :
    ∀ (pre post : List (Option Json)) (st : List Entry),
      (runChunks scheme L ((pre ++ none :: post).map ChunkOutcome.response) st).1
        = (runChunks scheme L ((pre ++ post).map ChunkOutcome.response) st).1
      ∧ (runChunks scheme L ((pre ++ none :: post).map ChunkOutcome.response) st).2
        = (runChunks scheme L ((pre ++ post).map ChunkOutcome.response) st).2 + 1 := by
  intro pre
  induction pre with
  | nil =>
    intro post st
    simp only [List.nil_append, List.map_cons]
    rw [runChunks_cons_response, processWindow_none]
    exact ⟨rfl, Nat.add_comm 1 _⟩
  | cons p pre ih =>
    intro post st
    simp only [List.cons_append, List.map_cons]
    rw [runChunks_cons_response, runChunks_cons_response]
    obtain ⟨h1, h2⟩ := ih post (processWindow scheme L st p).1
    exact ⟨h1, by omega⟩

theorem runChunks_failure_aborts (scheme : String) (L : Int) (k : ApiErrorKind) (d : String)
    (rest : List ChunkOutcome) :
    ∀ (pre : List (Option Json)) (st : List Entry),
      (runChunks scheme L (pre.map ChunkOutcome.response ++ .apiFailure k d :: rest) st).1
        = [.errorMessage (apiErrorText k d)] := by
  intro pre
  induction pre with
  | nil => intro st; rfl
  | cons p pre ih =>
    intro st
    simp only [List.map_cons, List.cons_append]
    rw [runChunks_cons_response]
    exact ih ((processWindow scheme L st p).1)

/-- Counterexample to claim C1 as stated: a window whose payload decodes
to valid JSON that lacks the expected structure ("malformed structured
payload") contributes zero annotations but NO warning for a word-list
scheme — here the middle window of three yields a final warning count of
`0`, not `1`, while the pipeline still merges the other two windows'
records. -/
theorem C1_counterexample :
    runChunks "couplets_aa_bb" 20
        [.response (some goodBatch1), .response (some badWordJson),
         .response (some goodBatch2)] []
      = ([.wordBatch "couplets_aa_bb" (.arr [wordRec1]),
          .wordBatch "couplets_aa_bb" (.arr [wordRec2])], 0) := by
  rfl

/-- Claim C1 (amended): a window whose raw response yields no decodable
JSON object is skipped with exactly one warning and an unchanged state, so
the final merged result of the remaining windows is untouched and the
warning count rises by one; for the segment-style scheme a decoded truthy
object without a `phonetic_segment_groups` list likewise contributes
nothing plus one warning; for word-list schemes a decoded truthy object
without a `rhyme_groups` list contributes nothing with NO warning.  The
pipeline always continues past such windows. -/
theorem C1_malformed_window_skipped (scheme : String) (L : Int) (st : List Entry)
    (pre post : List (Option Json)) :
    ((runChunks scheme L ((pre ++ none :: post).map ChunkOutcome.response) st).1
        = (runChunks scheme L ((pre ++ post).map ChunkOutcome.response) st).1
      ∧ (runChunks scheme L ((pre ++ none :: post).map ChunkOutcome.response) st).2
        = (runChunks scheme L ((pre ++ post).map ChunkOutcome.response) st).2 + 1) ∧
    (∀ j : Json, jsonTruthy j = true →
      (∀ a : List Json, j.getKey? "phonetic_segment_groups" ≠ some (Json.arr a)) →
      processWindow "phonetic_architecture" L st (some j) = (st, 1)) ∧
    (∀ j : Json, scheme ≠ "phonetic_architecture" → jsonTruthy j = true →
      (∀ a : List Json, j.getKey? "rhyme_groups" ≠ some (Json.arr a)) →
      processWindow scheme L st (some j) = (st, 0)) := by
  refine ⟨runChunks_insert_none scheme L pre post st, ?_, ?_⟩
  · intro j htruthy hnokey
    rw [processWindow]
    rw [if_pos htruthy, if_pos rfl]
    rcases hk : j.getKey? "phonetic_segment_groups" with _ | v
    · rfl
    · cases v with
      | arr a => exact absurd hk (hnokey a)
      | null => rfl
      | bool b => rfl
      | num n => rfl
      | str s => rfl
      | obj f => rfl
  · intro j hns htruthy hnokey
    rw [processWindow]
    rw [if_pos htruthy, if_neg hns]
    rcases hk : j.getKey? "rhyme_groups" with _ | v
    · rfl
    · cases v with
      | arr a => exact absurd hk (hnokey a)
      | null => rfl
      | bool b => rfl
      | num n => rfl
      | str s => rfl
      | obj f => rfl

/-- Witness for C1 (amended): inserting an undecodable window between two
valid word-scheme windows preserves the merged result and adds one
warning; a truthy object without the phonetic key yields `(st, 1)`. -/
theorem C1_malformed_window_skipped_witness :
    ((runChunks "phonetic_architecture" 20
        (([some goodBatch1] ++ none :: [some goodBatch2]).map ChunkOutcome.response) []).2
      = (runChunks "phonetic_architecture" 20
          (([some goodBatch1] ++ [some goodBatch2]).map ChunkOutcome.response) []).2 + 1) ∧
    processWindow "phonetic_architecture" 20 [] (some badWordJson) = ([], 1) :=
  ⟨(C1_malformed_window_skipped "phonetic_architecture" 20 [] [some goodBatch1]
      [some goodBatch2]).1.2,
   (C1_malformed_window_skipped "phonetic_architecture" 20 [] [] []).2.1 badWordJson rfl
     (fun _ h => Option.noConfusion h)⟩

theorem cacheGet_eq_none {α : Type} (k : String) (c : MemoryEfficientCache α)
    (hfresh : ∀ e ∈ c.entries, e.1 ≠ k) : cacheGet k c = none := by
  rw [cacheGet]
  have : c.entries.find? (fun e => e.1 == k) = none := by
    rw [List.find?_eq_none]
    intro e he
    simpa using hfresh e he
  rw [this]
  rfl

theorem cacheGet_cacheSet_self {α : Type} (k : String) (v : α)
    (c : MemoryEfficientCache α) (hfresh : ∀ e ∈ c.entries, e.1 ≠ k) :
    cacheGet k (cacheSet k v c) = some v := by
  rw [cacheSet, cacheGet]
  have hsub : ∀ es : List (String × α), (∀ e ∈ es, e.1 ≠ k) →
      (es.any (fun e => e.1 == k)) = false := by
    intro es hes
    rw [List.any_eq_false]
    intro e he
    simpa using hes e he
  have hdropfresh : ∀ e ∈ c.entries.drop 1, e.1 ≠ k :=
    fun e he => hfresh e (List.mem_of_mem_drop he)
  by_cases hcap : c.max_size ≤ c.entries.length
  · simp only [if_pos hcap, hsub (c.entries.drop 1) hdropfresh]
    simp only [Bool.false_eq_true, if_false, List.find?_append]
    rw [List.find?_eq_none.mpr (fun e he => by simpa using hdropfresh e he)]
    simp [List.find?]
  · simp only [if_neg hcap, hsub c.entries hfresh]
    simp only [Bool.false_eq_true, if_false, List.find?_append]
    rw [List.find?_eq_none.mpr (fun e he => by simpa using hfresh e he)]
    simp [List.find?]

/-- Counterexample to claim C2 as stated: when a window call fails, the
caller does NOT receive an `{error: <kind>, message: <string>}` envelope —
the route serializes the analysis function's returned
`[{"error_message": ...}]` list with HTTP 200.  Here a concrete request
whose only window call raises a generic `APIError` produces a JSON-list
response, not an envelope. -/
theorem C2_counterexample :
    (analyzeRoute digestStub (some ("abc", some "phonetic_architecture"))
        [.apiFailure .otherApi "boom"] ⟨[], 1000⟩).1
      = .json [.errorMessage (apiErrorText .otherApi "boom")] 200 ∧
    ((analyzeRoute digestStub (some ("abc", some "phonetic_architecture"))
        [.apiFailure .otherApi "boom"] ⟨[], 1000⟩).1).isEnvelope = false := by
  constructor
  · rfl
  · rfl

/-- Claim C2 (amended): a failed call for window `i` aborts the entire
aggregation — the accumulated state and the earlier windows are discarded
and the analysis returns the one-element list `[{"error_message": ...}]`,
whose message text distinguishes rate-limit and authentication failures
from other API errors; the route then serializes this list with HTTP 200
(not as an `{error, message}` envelope — `RouteResponse.isEnvelope` is
false).  The `{error, message}` envelope occurs for malformed input
(`Validation error`, HTTP 400), rejected before any window processing. -/
theorem C2_failure_abort_and_shape (digest : String → String) :
    (∀ (scheme : String) (L : Int) (pre : List (Option Json)) (k : ApiErrorKind)
        (d : String) (rest : List ChunkOutcome) (st : List Entry),
      (runChunks scheme L (pre.map ChunkOutcome.response ++ .apiFailure k d :: rest) st).1
        = [.errorMessage (apiErrorText k d)]) ∧
    (∀ d : String,
      apiErrorText .rateLimited d ≠ apiErrorText .otherApi d ∧
      apiErrorText .authFailure d ≠ apiErrorText .otherApi d ∧
      apiErrorText .rateLimited d ≠ apiErrorText .authFailure d) ∧
    (∀ (text scheme : String) (cache : MemoryEfficientCache (List Entry))
        (pre : List (Option Json)) (k : ApiErrorKind) (d : String)
        (rest : List ChunkOutcome),
      text ≠ "" → text.length ≤ 10000 → (pyStrip text).length ≠ 0 →
      (∀ e ∈ cache.entries, e.1 ≠ generate_cache_key digest (pyStrip text) scheme) →
      (analyzeRoute digest (some (text, some scheme))
          (pre.map ChunkOutcome.response ++ .apiFailure k d :: rest) cache).1
        = .json [.errorMessage (apiErrorText k d)] 200 ∧
      ((analyzeRoute digest (some (text, some scheme))
          (pre.map ChunkOutcome.response ++ .apiFailure k d :: rest) cache).1).isEnvelope
        = false) ∧
    (∀ (outcomes : List ChunkOutcome) (cache : MemoryEfficientCache (List Entry)),
      analyzeRoute digest none outcomes cache
        = (.envelope "Validation error" "Missing required field: text" 400, cache, false)) := by
  refine ⟨fun scheme L pre k d rest st => runChunks_failure_aborts scheme L k d rest pre st,
    ?_, ?_, fun outcomes cache => rfl⟩
  · intro d
    have hb1 : ("Wow, you\x27re analyzing so much! We\x27ve hit a temporary limit. Please try again in a moment. (Details: " : String).length
        ≠ ("Our analysis engine seems to be quite busy or encountered a hiccup. (Details: " : String).length := by decide
    have hb2 : ("Authentication issue with our analysis engine. Please contact support. (Details: " : String).length
        ≠ ("Our analysis engine seems to be quite busy or encountered a hiccup. (Details: " : String).length := by decide
    have hb3 : ("Wow, you\x27re analyzing so much! We\x27ve hit a temporary limit. Please try again in a moment. (Details: " : String).length
        ≠ ("Authentication issue with our analysis engine. Please contact support. (Details: " : String).length := by decide
    refine ⟨?_, ?_, ?_⟩
    · intro h
      have hlen := congrArg String.length h
      simp only [apiErrorText, String.length_append] at hlen
      omega
    · intro h
      have hlen := congrArg String.length h
      simp only [apiErrorText, String.length_append] at hlen
      omega
    · intro h
      have hlen := congrArg String.length h
      simp only [apiErrorText, String.length_append] at hlen
      omega
  · intro text scheme cache pre k d rest h1 h2 h3 hfresh
    have hroute : (analyzeRoute digest (some (text, some scheme))
        (pre.map ChunkOutcome.response ++ .apiFailure k d :: rest) cache).1
        = .json [.errorMessage (apiErrorText k d)] 200 := by
      rw [analyzeRoute]
      rw [if_neg h1, if_neg (by omega)]
      simp only [Option.getD]
      rw [cacheGet_eq_none _ _ hfresh]
      simp only []
      rw [getRhymeAnalysisValue, if_neg h3,
        runChunks_failure_aborts scheme ((pyStrip text).length : Int) k d rest pre []]
    exact ⟨hroute, by rw [hroute]; rfl⟩

/-- Witness for C2 (amended) at a concrete request with one failing
window call. -/
theorem C2_failure_abort_and_shape_witness :
    (analyzeRoute digestStub (some ("abc", some "phonetic_architecture"))
        [.apiFailure .rateLimited "429"] ⟨[], 1000⟩).1
      = .json [.errorMessage (apiErrorText .rateLimited "429")] 200 ∧
    apiErrorText .rateLimited "x" ≠ apiErrorText .otherApi "x" := by
  constructor
  · exact ((C2_failure_abort_and_shape digestStub).2.2.1 "abc" "phonetic_architecture"
      ⟨[], 1000⟩ [] .rateLimited "429" [] (by decide) (by decide) (by decide)
      (fun e he => absurd he (List.not_mem_nil e))).1
  · exact ((C2_failure_abort_and_shape digestStub).2.1 "x").1

/-- Claim C10: when a window's external call fails, the resulting
one-element `error_message` list is stored in the cache under the
request's `(scheme, digest-of-stripped-text)` fingerprint, and every
subsequent request with identical text and scheme is answered from the
cache with that stored error list — the external service is not consulted
(the returned flag is `false`) and the cache is unchanged. -/
theorem C10_error_result_cached (digest : String → String) (text scheme : String)
    (cache : MemoryEfficientCache (List Entry)) (pre : List (Option Json))
    (k : ApiErrorKind) (d : String) (rest outcomes2 : List ChunkOutcome)
    (h1 : text ≠ "") (h2 : text.length ≤ 10000) (h3 : (pyStrip text).length ≠ 0)
    (hfresh : ∀ e ∈ cache.entries,
      e.1 ≠ generate_cache_key digest (pyStrip text) scheme) :
    (analyzeRoute digest (some (text, some scheme))
        (pre.map ChunkOutcome.response ++ .apiFailure k d :: rest) cache).2.2 = true ∧
    cacheGet (generate_cache_key digest (pyStrip text) scheme)
        (analyzeRoute digest (some (text, some scheme))
          (pre.map ChunkOutcome.response ++ .apiFailure k d :: rest) cache).2.1
      = some [.errorMessage (apiErrorText k d)] ∧
    analyzeRoute digest (some (text, some scheme)) outcomes2
        (analyzeRoute digest (some (text, some scheme))
          (pre.map ChunkOutcome.response ++ .apiFailure k d :: rest) cache).2.1
      = (.json [.errorMessage (apiErrorText k d)] 200,
         (analyzeRoute digest (some (text, some scheme))
           (pre.map ChunkOutcome.response ++ .apiFailure k d :: rest) cache).2.1,
         false) := by
  have hval : getRhymeAnalysisValue scheme (pyStrip text)
      (pre.map ChunkOutcome.response ++ .apiFailure k d :: rest)
      = [.errorMessage (apiErrorText k d)] := by
    rw [getRhymeAnalysisValue, if_neg h3,
      runChunks_failure_aborts scheme ((pyStrip text).length : Int) k d rest pre []]
  have hroute : analyzeRoute digest (some (text, some scheme))
      (pre.map ChunkOutcome.response ++ .apiFailure k d :: rest) cache
      = (.json [.errorMessage (apiErrorText k d)] 200,
         cacheSet (generate_cache_key digest (pyStrip text) scheme)
           [.errorMessage (apiErrorText k d)] cache, true) := by
    rw [analyzeRoute]
    rw [if_neg h1, if_neg (by omega)]
    simp only [Option.getD]
    rw [cacheGet_eq_none _ _ hfresh]
    simp only []
    rw [hval]
  have hget : cacheGet (generate_cache_key digest (pyStrip text) scheme)
      (cacheSet (generate_cache_key digest (pyStrip text) scheme)
        [.errorMessage (apiErrorText k d)] cache)
      = some [.errorMessage (apiErrorText k d)] :=
    cacheGet_cacheSet_self _ _ cache hfresh
  refine ⟨by rw [hroute], by rw [hroute]; exact hget, ?_⟩
  rw [hroute]
  rw [analyzeRoute]
  rw [if_neg h1, if_neg (by omega)]
  simp only [Option.getD]
  rw [hget]
  rfl

/-- Witness for C10 at a concrete request whose single window call hits a
rate limit: the second identical request is served the cached error list
without consulting the service. -/
theorem C10_error_result_cached_witness :
    analyzeRoute digestStub (some ("abc", some "phonetic_architecture")) []
        (analyzeRoute digestStub (some ("abc", some "phonetic_architecture"))
          [.apiFailure .rateLimited "429"] ⟨[], 1000⟩).2.1
      = (.json [.errorMessage (apiErrorText .rateLimited "429")] 200,
         (analyzeRoute digestStub (some ("abc", some "phonetic_architecture"))
           [.apiFailure .rateLimited "429"] ⟨[], 1000⟩).2.1,
         false) :=
  (C10_error_result_cached digestStub "abc" "phonetic_architecture" ⟨[], 1000⟩ []
    .rateLimited "429" [] [] (by decide) (by decide) (by decide)
    (fun e he => absurd he (List.not_mem_nil e))).2.2

/-- Counterexample to claim C6 as stated: for a document of length `10` and
a window `[6, 10)` (local length `4`, offset `6`), the validator keeps the
segment record with indices `(5, 9)` unchanged — it clamps against the
WHOLE document length and performs no window-to-global translation —
whereas the claim's clamp-to-window-then-translate would produce
`(9, 10)`. -/
theorem C6_counterexample :
    validateSegment 10 (segJson "subst" "word" 5 9 0 4)
      = some ⟨"subst", "word", 5, 9, 0, 4⟩ ∧
    specClampTranslate 4 6 5 9 = some (9, 10) ∧
    ((5 : Int), (9 : Int)) ≠ ((9 : Int), (10 : Int)) := by
  refine ⟨rfl, rfl, by decide⟩

/-- Claim C6 (amended): for every segment record, `globalStartIndex` is
clamped into `[0, L-1]` and `globalEndIndex` into `[0, L]` where `L` is
the FULL document length (not the window's local length); the segment is
dropped exactly when `start ≥ end` after clamping; no window-local to
document-global translation is performed — the clamped indices are stored
as reported.  Every surviving segment satisfies
`0 ≤ globalStart < globalEnd ≤ L`. -/
theorem C6_clamp_against_document (L gs ge sip eip : Int) (txt pw : String) :
    validateSegment L (segJson txt pw gs ge sip eip)
      = (if max 0 (min gs (L - 1)) < max 0 (min ge L)
         then some ⟨txt, pw, max 0 (min gs (L - 1)), max 0 (min ge L), sip, eip⟩
         else none) ∧
    (∀ s : Segment, validateSegment L (segJson txt pw gs ge sip eip) = some s →
      s.text = txt ∧ s.parent_word_text = pw ∧
      0 ≤ s.globalStartIndex ∧ s.globalStartIndex < s.globalEndIndex ∧
      s.globalEndIndex ≤ L) := by
  have e : validateSegment L (segJson txt pw gs ge sip eip)
      = (if 0 ≤ max 0 (min gs (L - 1)) ∧ max 0 (min gs (L - 1)) < max 0 (min ge L)
            ∧ max 0 (min ge L) ≤ L
         then some ⟨txt, pw, max 0 (min gs (L - 1)), max 0 (min ge L), sip, eip⟩
         else none) := rfl
  constructor
  · rw [e]
    by_cases h : max 0 (min gs (L - 1)) < max 0 (min ge L)
    · rw [if_pos h, if_pos ⟨le_max_left 0 _, h, by omega⟩]
    · rw [if_neg h, if_neg (fun hc => h hc.2.1)]
  · intro s hs
    rw [e] at hs
    by_cases h : 0 ≤ max 0 (min gs (L - 1)) ∧ max 0 (min gs (L - 1)) < max 0 (min ge L)
        ∧ max 0 (min ge L) ≤ L
    · rw [if_pos h] at hs
      injection hs with hs
      subst hs
      exact ⟨rfl, rfl, h.1, h.2.1, h.2.2⟩
    · rw [if_neg h] at hs
      exact absurd hs (Option.noConfusion)

/-- Witness for C6 (amended): the concrete record `(gs, ge) = (12, 30)`
against a document of length `10` is clamped to `(9, 10)` — the document
bounds, not any window's. -/
theorem C6_clamp_against_document_witness :
    validateSegment 10 (segJson "abc" "abcd" 12 30 0 3)
      = (if max 0 (min 12 ((10 : Int) - 1)) < max 0 (min 30 (10 : Int))
         then some ⟨"abc", "abcd", max 0 (min 12 ((10 : Int) - 1)),
           max 0 (min 30 (10 : Int)), 0, 3⟩
         else none) :=
  (C6_clamp_against_document 10 12 30 0 3 "abc" "abcd").1

/-- Claim C7, code bug: the source's regex is written inside a RAW Python
string with doubled backslashes, so its fenced-block alternative demands a
literal backslash right after the fence opener "```json" and its brace
alternative only matches interiors made of backslash / `s` / `S`
characters.  Consequently a typical raw response carrying a well-formed
fenced "```json" block yields NO located JSON (zero annotations plus a
warning), although the trimmed-verbatim path and, for example, a brace
span with class-only interior still succeed. -/
theorem C7_regex_never_finds_fenced_json :
    fencedResponse
      = "Here is the JSON:\n" ++ "```json\n"
          ++ "\x7b\"phonetic_segment_groups\": []\x7d" ++ "\n```" ∧
    locateJson fencedResponse = none ∧
    locateJson "  \x7b\"phonetic_segment_groups\": []\x7d "
      = some "\x7b\"phonetic_segment_groups\": []\x7d" ∧
    locateJson "x \x7bssS\x7d y" = some "\x7bssS\x7d" ∧
    locateJson "x \x7bab\x7d y" = none := by
  refine ⟨rfl, by decide, by decide, by decide, by decide⟩

end NoctuaForest
